import Mathlib

/-!
Verification of the photo-selector Media Selection & Deduplication Engine.

Shallow embedding of the Python sources under `src/photo_selector/`:
pure functions become Lean functions over `ℚ` (for Python floats), `ℤ`/`Nat`
(for Python ints), `String` and explicit `Option`/`Except` for fallible code.
Stateful code (the sqlite score store, the filesystem touched by cleanup)
is modelled by explicit state passing.
-/

namespace PhotoSelector

/- ===================== Definitions ===================== -/

/-- Fuel-driven helper for `bitCount` (structural recursion on the fuel so
the kernel can evaluate it; `n` itself is always enough fuel since `n / 2`
halves at every step). -/
def bitCountAux : Nat → Nat → Nat
  | 0, _ => 0
  | (fuel + 1), n => if n = 0 then 0 else n % 2 + bitCountAux fuel (n / 2)

/-- Number of set bits of a natural number; embeds Python `int.bit_count()`
for non-negative ints. -/
def bitCount (n : Nat) : Nat :=
  bitCountAux n n

/-- `dedupe_utils.hamming_distance`: `(left ^ right).bit_count()`.
Fingerprints are 64-bit non-negative ints, embedded as `Nat`. -/
def hamming_distance (left right : Nat) : Nat :=
  bitCount (left ^^^ right)

/-- The dynamically-typed `hash` field of a photo/clip record: a Python int,
a string, or anything else (`other`, covering `None` and non-int non-str). -/
inductive HashField where
  | int (n : Nat)
  | str (s : String)
  | other
deriving Repr, DecidableEq

/-- Value of one hexadecimal digit, as accepted by Python `int(_, 16)`. -/
def hexDigitVal (c : Char) : Option Nat :=
  if '0' ≤ c ∧ c ≤ '9' then some (c.toNat - '0'.toNat)
  else if 'a' ≤ c ∧ c ≤ 'f' then some (c.toNat - 'a'.toNat + 10)
  else if 'A' ≤ c ∧ c ≤ 'F' then some (c.toNat - 'A'.toNat + 10)
  else none

/-- Parse a non-empty string of hex digits; embeds Python `int(value, 16)`
on the plain hex-digit strings the engine produces (`f"{hash:016x}"`). -/
def hexToNat : List Char → Option Nat → Option Nat
  | [], acc => acc
  | c :: rest, acc =>
    match hexDigitVal c with
    | some d => hexToNat rest (some ((acc.getD 0) * 16 + d))
    | none => none

/-- `dedupe_utils.hash_to_int`: an int passes through, a string is parsed as
hex (invalid → `None`), anything else → `None`. -/
def hash_to_int : HashField → Option Nat
  | HashField.int n => some n
  | HashField.str s => hexToNat s.data none
  | HashField.other => none

/-- `dedupe_utils.is_near_duplicate`: true iff some already-selected
fingerprint is within `threshold` Hamming distance. -/
def is_near_duplicate (candidate : Nat) (selected : List Nat) (threshold : ℤ) : Bool :=
  selected.any (fun existing => (hamming_distance candidate existing : ℤ) ≤ threshold)

/-- `selector.DEFAULT_NEAR_DUPLICATE_THRESHOLD`. -/
def DEFAULT_NEAR_DUPLICATE_THRESHOLD : ℤ := 8

/-- Projection of a photo record dict onto the fields `select_top_photos`
reads: truthiness of `error`, `analysis["score"]` when `analysis` is a dict
with an int/float score (else `none`), and the raw `hash` field.
`tag` carries the record's identity (its path). -/
structure Photo where
  tag : String
  error : Bool
  analysisScore : Option ℚ
  hash : HashField
deriving Repr, DecidableEq

/-- `selector._has_valid_score`. -/
def has_valid_score (photo : Photo) : Bool :=
  !photo.error && photo.analysisScore.isSome

/-- Sort key `item["analysis"]["score"]`; only applied to eligible photos,
where the score is present. -/
def photoScore (photo : Photo) : ℚ :=
  photo.analysisScore.getD 0

/-- Stable insertion of a photo into a descending-by-score list: the
element (originally earlier) goes before the first element whose score it
meets or exceeds.  Building block for the embedding of Python's stable
`sorted(_, key=score, reverse=True)`. -/
def insertDesc (p : Photo) : List Photo → List Photo
  | [] => [p]
  | q :: t => if photoScore q ≤ photoScore p then p :: q :: t else q :: insertDesc p t

/-- Embedding of Python's stable `sorted(photos, key=score, reverse=True)`
as a stable insertion sort. -/
def sortPhotosDesc : List Photo → List Photo
  | [] => []
  | p :: t => insertDesc p (sortPhotosDesc t)

/-- Index of the first cluster representative hash within `threshold` of
`h` (the `for idx, base_hash in enumerate(cluster_hashes)` loop in
`select_top_photos`, which tests `is_near_duplicate(h, [base_hash], t)`). -/
def findClusterIdxAux (h : Nat) (t : ℤ) : List Nat → Nat → Option Nat
  | [], _ => none
  | b :: rest, i =>
    if is_near_duplicate h [b] t then some i else findClusterIdxAux h t rest (i + 1)

def findClusterIdx (h : Nat) (hashes : List Nat) (t : ℤ) : Option Nat :=
  findClusterIdxAux h t hashes 0

/-- `clusters[idx].append(photo)`. -/
def appendAt (p : Photo) : List (List Photo) → Nat → List (List Photo)
  | [], _ => []
  | c :: rest, 0 => (c ++ [p]) :: rest
  | c :: rest, (i + 1) => c :: appendAt p rest i

/-- Loop state of the clustering walk in `select_top_photos`. -/
structure ClusterState where
  clusters : List (List Photo)
  clusterHashes : List Nat
  ungrouped : List Photo
deriving Repr, DecidableEq

/-- One iteration of the `for photo in ordered` loop in `select_top_photos`. -/
def clusterStep (st : ClusterState) (photo : Photo) : ClusterState :=
  match hash_to_int photo.hash with
  | none => { st with ungrouped := st.ungrouped ++ [photo] }
  | some h =>
    match findClusterIdx h st.clusterHashes DEFAULT_NEAR_DUPLICATE_THRESHOLD with
    | some idx => { st with clusters := appendAt photo st.clusters idx }
    | none =>
      { st with
        clusters := st.clusters ++ [[photo]],
        clusterHashes := st.clusterHashes ++ [h] }

/-- `selector.select_top_photos`.  `target_count` is the selection quota,
a non-negative count. -/
def select_top_photos (photos : List Photo) (target_count : Nat) : List Photo :=
  let eligible := photos.filter has_valid_score
  let ordered := sortPhotosDesc eligible
  let st := ordered.foldl clusterStep ⟨[], [], []⟩
  let cluster_best := st.clusters.filterMap List.head?
  let cluster_best := sortPhotosDesc (cluster_best ++ st.ungrouped)
  if cluster_best.length ≤ target_count then cluster_best
  else cluster_best.take target_count

/-- Loop body of `selector.select_photos_with_dedupe` after the eligibility
sort (walks `ordered`, keeping non-near-duplicates until the quota fills). -/
def dedupeKeepLoop (target_count : Nat) (threshold : ℤ) :
    List Photo → List Photo → List Nat → List Photo
  | [], kept, _ => kept
  | photo :: rest, kept, keptHashes =>
    match hash_to_int photo.hash with
    | some h =>
      if is_near_duplicate h keptHashes threshold then
        dedupeKeepLoop target_count threshold rest kept keptHashes
      else
        if target_count ≤ kept.length + 1 then kept ++ [photo]
        else dedupeKeepLoop target_count threshold rest (kept ++ [photo]) (keptHashes ++ [h])
    | none =>
      if target_count ≤ kept.length + 1 then kept ++ [photo]
      else dedupeKeepLoop target_count threshold rest (kept ++ [photo]) keptHashes

/-- `selector.select_photos_with_dedupe`. -/
def select_photos_with_dedupe (photos : List Photo) (target_count : Nat)
    (hamming_threshold : ℤ) (dedupe_enabled : Bool) : List Photo :=
  let eligible := photos.filter has_valid_score
  let ordered := sortPhotosDesc eligible
  if !dedupe_enabled then ordered.take target_count
  else dedupeKeepLoop target_count hamming_threshold ordered [] []

/-- Dynamically-typed Python values as the judge payloads use them:
`None`, `bool`, `int`, `float` (embedded as `ℚ`), `str`, `list`, `dict`.
`bool` is kept distinct from `int` although Python's `bool` is an `int`
subclass; `isinstance(_, (int, float))`-style checks below accept both. -/
inductive PyVal where
  | none_
  | bool (b : Bool)
  | int (n : ℤ)
  | float (q : ℚ)
  | str (s : String)
  | list (xs : List PyVal)
  | dict (fields : List (String × PyVal))

/-- `isinstance(v, dict)`. -/
def PyVal.isDict : PyVal → Bool
  | PyVal.dict _ => true
  | _ => false

/-- `isinstance(v, list)`. -/
def PyVal.isList : PyVal → Bool
  | PyVal.list _ => true
  | _ => false

/-- The fields of a value known to be a dict (`[]` otherwise). -/
def PyVal.asDict : PyVal → List (String × PyVal)
  | PyVal.dict d => d
  | _ => []

/-- Python dicts as association lists in insertion order (Python dict keys
are unique; lookup takes the first binding). -/
def dGet : List (String × PyVal) → String → Option PyVal
  | [], _ => none
  | (k', v) :: rest, k => if k' = k then some v else dGet rest k

/-- `d.get(k)` — missing keys give `None`. -/
def pyGet (d : List (String × PyVal)) (k : String) : PyVal :=
  (dGet d k).getD PyVal.none_

/-- `d[k] = v`: replace in place when the key exists, append otherwise. -/
def dSet : List (String × PyVal) → String → PyVal → List (String × PyVal)
  | [], k, v => [(k, v)]
  | (k', v') :: rest, k, v =>
    if k' = k then (k', v) :: rest else (k', v') :: dSet rest k v

/-- `d.setdefault(k, v)`. -/
def dSetdefault (d : List (String × PyVal)) (k : String) (v : PyVal) :
    List (String × PyVal) :=
  match dGet d k with
  | some _ => d
  | none => dSet d k v

/-- Decimal value of a digit string. -/
def digitsVal (ds : List Char) : Nat :=
  ds.foldl (fun a c => a * 10 + (c.toNat - '0'.toNat)) 0

/-- ASCII digit test (`isDigitChar`, written with plain character
equalities). -/
def isDigitChar (c : Char) : Bool :=
  c == '0' || c == '1' || c == '2' || c == '3' || c == '4' ||
    c == '5' || c == '6' || c == '7' || c == '8' || c == '9'

/-- Python `str.isspace` characters that `str.strip()` removes (the ASCII
ones arising in judge responses). -/
def isPySpace (c : Char) : Bool :=
  c == ' ' || c == '\t' || c == '\n' || c == '\r' || c == Char.ofNat 11 || c == Char.ofNat 12

/-- Python `s.strip()` on a char list. -/
def stripChars (cs : List Char) : List Char :=
  ((cs.dropWhile isPySpace).reverse.dropWhile isPySpace).reverse

/-- Embeds Python `float(s)` on finite decimal literals: optional
surrounding whitespace, optional sign, digits with optional fractional part
and optional exponent.  (`inf`/`nan` are outside the exact-`ℚ` model; the
judge scores the engine coerces are plain decimals.) -/
def pyFloatOfString (s : String) : Option ℚ :=
  let cs := stripChars s.data
  let sign : ℚ × List Char :=
    match cs with
    | c :: r => if c == '+' then (1, r) else if c == '-' then (-1, r) else (1, cs)
    | [] => (1, [])
  let ip := sign.2.takeWhile isDigitChar
  let rest0 := sign.2.dropWhile isDigitChar
  let frac : List Char × List Char :=
    match rest0 with
    | c :: r =>
      if c == '.' then (r.takeWhile isDigitChar, r.dropWhile isDigitChar) else ([], rest0)
    | [] => ([], [])
  if ip.isEmpty ∧ frac.1.isEmpty then none
  else
    let mant : ℚ := (digitsVal ip : ℚ) + (digitsVal frac.1 : ℚ) / (10 : ℚ) ^ frac.1.length
    match frac.2 with
    | [] => some (sign.1 * mant)
    | e :: r =>
      if e == 'e' || e == 'E' then
        let esign : ℤ × List Char :=
          match r with
          | c :: r2 => if c == '+' then (1, r2) else if c == '-' then (-1, r2) else (1, r)
          | [] => (1, [])
        let ed := esign.2.takeWhile isDigitChar
        let tail := esign.2.dropWhile isDigitChar
        if ed.isEmpty || !tail.isEmpty then none
        else some (sign.1 * mant * (10 : ℚ) ^ (esign.1 * (digitsVal ed : ℤ)))
      else none

/-- `score_schema._coerce_float`: ints/floats (and bools, being Python
ints) convert, strings go through `float(_)`, everything else is `None`. -/
def coerce_float : PyVal → Option ℚ
  | PyVal.bool b => some (if b then 1 else 0)
  | PyVal.int n => some (n : ℚ)
  | PyVal.float q => some q
  | PyVal.str s => pyFloatOfString s
  | _ => none

/-- `score_schema._clamp01` (identical to `analyzer._clamp_score` and the
inline clamp in `video_digest._apply_risk_penalties`). -/
def clamp01 (value : ℚ) : ℚ :=
  if value < 0 then 0 else if value > 1 then 1 else value

/-- `score_schema.ScoreResult`. -/
structure ScoreResult where
  overall_score : ℚ
  sharpness : ℚ
  subject_visibility : ℚ
  composition : ℚ
  duplication_penalty : ℚ
  reasoning : String
deriving Repr, DecidableEq

/-- `score_schema.parse_score_result`.  `x or 0.0` on an `Option`al float
collapses to `getD 0` (a present `0.0` is falsy but the result is `0.0`
either way). -/
def parse_score_result (raw : List (String × PyVal)) : ScoreResult :=
  let overall : ℚ :=
    match coerce_float (pyGet raw "overall_score") with
    | some v => v
    | none =>
      match coerce_float (pyGet raw "score") with
      | some v => v
      | none => 0
  let sharpness := (coerce_float (pyGet raw "sharpness")).getD 0
  let subject_visibility := (coerce_float (pyGet raw "subject_visibility")).getD 0
  let composition := (coerce_float (pyGet raw "composition")).getD 0
  let duplication_penalty := (coerce_float (pyGet raw "duplication_penalty")).getD 0
  let reasoning :=
    match pyGet raw "reasoning" with
    | PyVal.str s => s
    | _ => ""
  { overall_score := clamp01 overall,
    sharpness := clamp01 sharpness,
    subject_visibility := clamp01 subject_visibility,
    composition := clamp01 composition,
    duplication_penalty := clamp01 duplication_penalty,
    reasoning := String.mk (stripChars reasoning.data) }

/-- `score_schema.normalize_analysis`: raises (`ValueError`) iff the input
is not a dict; otherwise repairs it to the canonical shape. -/
def normalize_analysis : PyVal → Except String (List (String × PyVal))
  | PyVal.dict d =>
    let a := d
    let a := dSetdefault a "caption" (PyVal.str "")
    let a := dSetdefault a "tags" (PyVal.list [])
    let a := dSetdefault a "risks" (PyVal.dict [])
    let a := if !(pyGet a "tags").isList then dSet a "tags" (PyVal.list []) else a
    let a := if !(pyGet a "risks").isDict then dSet a "risks" (PyVal.dict []) else a
    let risks := (pyGet a "risks").asDict
    let risks := dSetdefault risks "blur" (PyVal.bool false)
    let risks := dSetdefault risks "dark" (PyVal.bool false)
    let risks := dSetdefault risks "overexposed" (PyVal.bool false)
    let risks := dSetdefault risks "out_of_focus" (PyVal.bool false)
    let a := dSet a "risks" (PyVal.dict risks)
    let sr := parse_score_result a
    let a := dSet a "overall_score" (PyVal.float sr.overall_score)
    let a := dSet a "sharpness" (PyVal.float sr.sharpness)
    let a := dSet a "subject_visibility" (PyVal.float sr.subject_visibility)
    let a := dSet a "composition" (PyVal.float sr.composition)
    let a := dSet a "duplication_penalty" (PyVal.float sr.duplication_penalty)
    let a := dSet a "reasoning" (PyVal.str sr.reasoning)
    let a := dSet a "score" (PyVal.float sr.overall_score)
    Except.ok a
  | _ => Except.error "Analysis is not a JSON object"

/-- `analyzer` scoring constants. -/
def MIN_SHORT_SIDE : ℤ := 720

def DARK_PENALTY : ℚ := 0.2

def LOW_RESOLUTION_PENALTY : ℚ := 0.2

def BLUR_PENALTY : ℚ := 0.25

def BLUR_STRONG_PENALTY : ℚ := 0.4

def QUALITY_PENALTY_SCALE : ℚ := 0.5

/-- Truthiness of the quality flags `apply_quality_corrections` reads from
the quality dict (`bool(quality.get(k))`). -/
structure QualityFlags where
  dark : Bool
  blur_strong : Bool
  blur_center : Bool
  blur_lower : Bool
deriving Repr, DecidableEq

/-- `analyzer.apply_quality_corrections`. -/
def apply_quality_corrections (score : ℚ) (quality : QualityFlags)
    (width height : ℤ) : ℚ :=
  let s := if score > 1 then score / 100 else score
  let s := if quality.dark then s - DARK_PENALTY * QUALITY_PENALTY_SCALE else s
  let s := if quality.blur_strong then s - BLUR_STRONG_PENALTY * QUALITY_PENALTY_SCALE else s
  let s := if quality.blur_center then s - BLUR_PENALTY * QUALITY_PENALTY_SCALE else s
  let s := if quality.blur_lower then s - BLUR_PENALTY * 0.6 * QUALITY_PENALTY_SCALE else s
  let s := if min width height < MIN_SHORT_SIDE then s - LOW_RESOLUTION_PENALTY * QUALITY_PENALTY_SCALE else s
  clamp01 s

/-- Truthiness of the risk flags `_apply_risk_penalties` reads
(`bool(risks.get(k))`). -/
structure RiskFlags where
  blur : Bool
  out_of_focus : Bool
  dark : Bool
  overexposed : Bool
deriving Repr, DecidableEq

/-- `video_digest._apply_risk_penalties` (its trailing clamp is literally
`clamp01`). -/
def apply_risk_penalties (score : ℚ) (risks : RiskFlags) : ℚ :=
  let penalty_scale : ℚ := 0.5
  let s := if risks.blur then score - 0.25 * penalty_scale else score
  let s := if risks.out_of_focus then s - 0.25 * penalty_scale else s
  let s := if risks.dark then s - 0.15 * penalty_scale else s
  let s := if risks.overexposed then s - 0.15 * penalty_scale else s
  clamp01 s

/-- Total quality deduction of `apply_quality_corrections` (the sum of its
conditional subtractions). -/
def qualityPenalty (quality : QualityFlags) (width height : ℤ) : ℚ :=
  (if quality.dark then DARK_PENALTY * QUALITY_PENALTY_SCALE else 0)
    + (if quality.blur_strong then BLUR_STRONG_PENALTY * QUALITY_PENALTY_SCALE else 0)
    + (if quality.blur_center then BLUR_PENALTY * QUALITY_PENALTY_SCALE else 0)
    + (if quality.blur_lower then BLUR_PENALTY * 0.6 * QUALITY_PENALTY_SCALE else 0)
    + (if min width height < MIN_SHORT_SIDE then LOW_RESOLUTION_PENALTY * QUALITY_PENALTY_SCALE else 0)

/-- Total risk deduction of `_apply_risk_penalties`. -/
def riskPenalty (risks : RiskFlags) : ℚ :=
  (if risks.blur then (0.25 : ℚ) * 0.5 else 0)
    + (if risks.out_of_focus then (0.25 : ℚ) * 0.5 else 0)
    + (if risks.dark then (0.15 : ℚ) * 0.5 else 0)
    + (if risks.overexposed then (0.15 : ℚ) * 0.5 else 0)

/-- `resume_db.CachedScore`. -/
structure CachedScore where
  score : ℚ
  analysis : Option (List (String × PyVal))
  quality : Option (List (String × PyVal))

/-- One row of the sqlite `photo_scores` table (primary key `file_path`
held in the surrounding association list). -/
structure StoreRow where
  file_hash : String
  score : ℚ
  analysis_json : Option (List (String × PyVal))
  quality_json : Option (List (String × PyVal))
  last_processed_at : String

/-- `resume_db.ScoreStore._dump_json` composed with the external `json`
stdlib.  `json.loads(json.dumps(d))` is the identity on the
JSON-serialisable dicts the engine stores, so the TEXT column is modelled
as carrying the dict itself; `None` maps to a NULL column. -/
def dump_json (value : Option (List (String × PyVal))) : Option (List (String × PyVal)) :=
  value

/-- `resume_db.ScoreStore._load_json` under the same codec model: a NULL
column (only produced by `_dump_json(None)`; `json.dumps` of a dict is a
non-empty, hence truthy, string) loads back as `None`. -/
def load_json (value : Option (List (String × PyVal))) : Option (List (String × PyVal)) :=
  value

/-- The sqlite store state: rows of `photo_scores` keyed by `file_path`. -/
structure ScoreStore where
  rows : List (String × StoreRow)

/-- `SELECT ... WHERE file_path = ?` (`ScoreStore._fetch_row`): the primary
key is unique, lookup takes the first binding. -/
def fetch_row : List (String × StoreRow) → String → Option StoreRow
  | [], _ => none
  | (k, r) :: rest, file_path => if k = file_path then some r else fetch_row rest file_path

/-- `INSERT ... ON CONFLICT(file_path) DO UPDATE`: update the existing row
in place, else append a new one. -/
def upsert_row : List (String × StoreRow) → String → StoreRow → List (String × StoreRow)
  | [], file_path, row => [(file_path, row)]
  | (k, r) :: rest, file_path, row =>
    if k = file_path then (k, row) :: rest else (k, r) :: upsert_row rest file_path row

/-- `resume_db.ScoreStore.get`. -/
def ScoreStore.get (store : ScoreStore) (file_path file_hash : String) : Option CachedScore :=
  match fetch_row store.rows file_path with
  | none => none
  | some row =>
    if row.file_hash ≠ file_hash then none
    else some ⟨row.score, load_json row.analysis_json, load_json row.quality_json⟩

/-- `resume_db.ScoreStore.upsert`.  The `last_processed_at` timestamp comes
from the external clock and is threaded in as `now`. -/
def ScoreStore.upsert (store : ScoreStore) (file_path file_hash : String) (score : ℚ)
    (analysis quality : Option (List (String × PyVal))) (now : String) : ScoreStore :=
  ⟨upsert_row store.rows file_path ⟨file_hash, score, dump_json analysis, dump_json quality, now⟩⟩

/-- The parameters `resume_db.ScoreStore.__init__` accepts besides `self`. -/
def scoreStoreInitParams : List String := ["db_path"]

/-- The keyword arguments `execution_plan._build_photo_plan` passes to
`ScoreStore(paths.db_path, create=False)` beyond the positional `db_path`. -/
def planStoreCallKwargs : List String := ["create"]

/-- `resume_db.ScoreStore._init_db` at filesystem level:
`db_path.parent.mkdir(parents=True, exist_ok=True)` followed by
`sqlite3.connect(db_path)` (which creates the database file whenever it
does not exist) and `CREATE TABLE IF NOT EXISTS`.  The filesystem is
modelled as the list of existing file paths. -/
def init_db (fs : List String) (dbPath : String) : List String :=
  if dbPath ∈ fs then fs else dbPath :: fs

/-- Python call semantics at a `ScoreStore(...)` call site: the call raises
`TypeError` iff some keyword argument is not a parameter of `__init__`;
otherwise the constructor body runs (`self._init_db()`). -/
def scoreStoreConstructorCall (fs : List String) (dbPath : String) (kwargs : List String) :
    Except String (List String) :=
  if kwargs.all (fun k => scoreStoreInitParams.contains k) then Except.ok (init_db fs dbPath)
  else Except.error "TypeError: unexpected keyword argument"

/-- `execution_plan._build_photo_plan`, projected onto its score-cache
effects.  `resume_enabled = bool(resume) and not bool(force)`; when it
holds the planner constructs `ScoreStore(paths.db_path, create=False)`,
otherwise no store is opened.  The plan body (partitioning the input files)
depends on the external imaging collaborator and is elided; the result
carries `resume_enabled` and the filesystem after the constructor call. -/
def build_photo_plan (resume force : Bool) (fs : List String) (dbPath : String) :
    Except String (Bool × List String) :=
  let resume_enabled := resume && !force
  if resume_enabled then
    match scoreStoreConstructorCall fs dbPath planStoreCallKwargs with
    | Except.ok fs' => Except.ok (resume_enabled, fs')
    | Except.error e => Except.error e
  else Except.ok (resume_enabled, fs)

/-- `video_digest.MIN_BRIGHTNESS_GATE`. -/
def MIN_BRIGHTNESS_GATE : ℚ := 15

/-- Projection of a clip record dict onto the fields
`_select_clips_for_source` reads: truthiness of `error`, numeric
`score_final` (else `none`), whether `quality` is a dict and its numeric
`brightness` (none when absent or non-numeric), `duration`
(`float(record.get("duration", 0.0))`), and the raw `frame_hash` field. -/
structure Clip where
  tag : String
  error : Bool
  score_final : Option ℚ
  qualityIsDict : Bool
  brightness : Option ℚ
  duration : ℚ
  frame_hash : HashField
deriving Repr, DecidableEq

/-- `video_digest._passes_quality_gate`. -/
def passes_quality_gate (record : Clip) : Bool :=
  if !record.qualityIsDict then false
  else
    match record.brightness with
    | some b => !decide (b < MIN_BRIGHTNESS_GATE)
    | none => true

/-- Sort key `item["score_final"]` (present on every eligible clip). -/
def clipScore (record : Clip) : ℚ :=
  record.score_final.getD 0

/-- Stable descending insertion for clips (same scheme as `insertDesc`). -/
def insertClipDesc (p : Clip) : List Clip → List Clip
  | [] => [p]
  | q :: t => if clipScore q ≤ clipScore p then p :: q :: t else q :: insertClipDesc p t

/-- Embedding of `sorted(eligible, key=score_final, reverse=True)`. -/
def sortClipsDesc : List Clip → List Clip
  | [] => []
  | p :: t => insertClipDesc p (sortClipsDesc t)

/-- The `for record in ordered` loop of `_select_clips_for_source`:
accumulators are the selected clips, the running duration `total`, the
`removed_duplicates` count and the (mutated-in-place) `existing_hashes`. -/
def selectLoop (maxClips : ℤ) (limit : ℚ) (dedupe_enabled : Bool) (threshold : ℤ) :
    List Clip → List Clip → ℚ → ℕ → List Nat → List Clip × ℚ × ℕ × List Nat
  | [], selected, total, removed, hashes => (selected, total, removed, hashes)
  | record :: rest, selected, total, removed, hashes =>
    if maxClips ≤ (selected.length : ℤ) then (selected, total, removed, hashes)
    else
      if total + record.duration > limit then
        selectLoop maxClips limit dedupe_enabled threshold rest selected total removed hashes
      else
        match hash_to_int record.frame_hash with
        | some h =>
          if dedupe_enabled && is_near_duplicate h hashes threshold then
            selectLoop maxClips limit dedupe_enabled threshold rest selected total (removed + 1) hashes
          else
            if limit ≤ total + record.duration then
              (selected ++ [record], total + record.duration, removed, hashes ++ [h])
            else
              selectLoop maxClips limit dedupe_enabled threshold rest (selected ++ [record])
                (total + record.duration) removed (hashes ++ [h])
        | none =>
          if limit ≤ total + record.duration then
            (selected ++ [record], total + record.duration, removed, hashes)
          else
            selectLoop maxClips limit dedupe_enabled threshold rest (selected ++ [record])
              (total + record.duration) removed hashes

/-- Ascending insertion sort on rationals (embedding of `sorted(scores)`). -/
def insertRatAsc (x : ℚ) : List ℚ → List ℚ
  | [] => [x]
  | y :: t => if x ≤ y then x :: y :: t else y :: insertRatAsc x t

def sortRatAsc : List ℚ → List ℚ
  | [] => []
  | x :: t => insertRatAsc x (sortRatAsc t)

/-- `video_digest._score_stats`, as (min, median, p90, max).
`int(0.9 * (count - 1))` truncates the non-negative product, i.e. takes
`⌊9 (count−1) / 10⌋`. -/
def score_stats (scores : List ℚ) : Option ℚ × Option ℚ × Option ℚ × Option ℚ :=
  match scores with
  | [] => (none, none, none, none)
  | _ :: _ =>
    let ss := sortRatAsc scores
    let count := ss.length
    let mi := count / 2
    let median : ℚ :=
      if count % 2 = 0 then (ss.getD (mi - 1) 0 + ss.getD mi 0) / 2 else ss.getD mi 0
    let p90i := 9 * (count - 1) / 10
    (some (ss.getD 0 0), some median, some (ss.getD p90i 0), some (ss.getD (count - 1) 0))

/-- Python `round(q, 3)` (round half to even) on exact rationals. -/
def pyRound3 (q : ℚ) : ℚ :=
  let x := q * 1000
  let f : ℤ := ⌊x⌋
  let r := x - (f : ℚ)
  let n : ℤ :=
    if r < 1 / 2 then f
    else if r > 1 / 2 then f + 1
    else if f % 2 = 0 then f else f + 1
  (n : ℚ) / 1000

/-- The summary statistics dict built by `_select_clips_for_source`. -/
structure ClipStats where
  total_clips : ℕ
  scored : ℕ
  removed_duplicates : ℕ
  selected : ℕ
  total_selected_seconds : ℚ
  score_min : Option ℚ
  score_median : Option ℚ
  score_p90 : Option ℚ
  score_max : Option ℚ
deriving Repr, DecidableEq

/-- `video_digest._select_clips_for_source`.  The Python function mutates
`existing_hashes` in place; the model returns the final accumulator as the
third component. -/
def select_clips_for_source (records : List Clip) (max_source_seconds : ℤ)
    (max_selected_clips : ℤ) (target_digest_seconds : ℤ) (dedupe_enabled : Bool)
    (hamming_threshold : ℤ) (existing_hashes : List Nat) :
    List Clip × ClipStats × List Nat :=
  let eligible := records.filter
    (fun r => !r.error && r.score_final.isSome && passes_quality_gate r)
  let ordered := sortClipsDesc eligible
  let limit : ℚ := ((min max_source_seconds target_digest_seconds : ℤ) : ℚ)
  let res := selectLoop max_selected_clips limit dedupe_enabled hamming_threshold
    ordered [] 0 0 existing_hashes
  let stats4 := score_stats (eligible.map clipScore)
  let stats : ClipStats :=
    { total_clips := records.length,
      scored := eligible.length,
      removed_duplicates := res.2.2.1,
      selected := res.1.length,
      total_selected_seconds := pyRound3 res.2.1,
      score_min := stats4.1,
      score_median := stats4.2.1,
      score_p90 := stats4.2.2.1,
      score_max := stats4.2.2.2 }
  (res.1, stats, res.2.2.2)

/-- A filesystem path in canonical absolute form, as a list of segments
(`Path.resolve(strict=False)` is the identity on these, so
`p.is_relative_to(base)` is segment-prefix containment). -/
abbrev FsPath := List String

/-- The filesystem state cleanup acts on: existing regular files and
existing directories, by canonical path. -/
structure VideoFs where
  files : List FsPath
  dirs : List FsPath
deriving Repr, DecidableEq

/-- Projection of a per-source result record onto the field
`_has_failures` reads (truthiness of `error`). -/
structure SourceRecord where
  tag : String
  error : Bool
deriving Repr, DecidableEq

/-- One job-state ledger entry (`{"status": ..., "error": ...}`). -/
structure LedgerEntry where
  status : String
deriving Repr, DecidableEq

/-- The job-state ledger: step name → item key → entry. -/
abbrev JobState := List (String × List (String × LedgerEntry))

/-- `video_digest._has_failures`. -/
def has_failures (sources : List SourceRecord) (job_state : JobState) : Bool :=
  sources.any (fun s => s.error)
    || job_state.any (fun step => step.2.any (fun e => e.2.status == "failed"))

/-- `video_digest._is_relative_to` under the canonical-path model. -/
def path_is_relative_to (path base : FsPath) : Bool :=
  base.isPrefixOf path

/-- `video_digest._is_safe_temp_dir`: the directory's name must be the
sentinel `temp` and the path must resolve under the output directory. -/
def is_safe_temp_dir (temp_dir output_dir : FsPath) : Bool :=
  (temp_dir.getLast? == some "temp") && path_is_relative_to temp_dir output_dir

def dirExists (fs : VideoFs) (d : FsPath) : Bool :=
  fs.dirs.contains d

/-- `video_digest._collect_files`: all regular files under `root`
(`root.rglob("*")`), or `[]` when the directory does not exist. -/
def collect_files (fs : VideoFs) (root : FsPath) : List FsPath :=
  if !dirExists fs root then []
  else fs.files.filter (fun f => path_is_relative_to f root)

/-- `video_digest._sorted_dirs_descending`: each existing root plus its
existing subdirectories, sorted deepest-first by segment count. -/
def insertDirDeepFirst (d : FsPath) : List FsPath → List FsPath
  | [] => [d]
  | e :: t => if e.length ≤ d.length then d :: e :: t else e :: insertDirDeepFirst d t

def sortDirsDeepFirst : List FsPath → List FsPath
  | [] => []
  | d :: t => insertDirDeepFirst d (sortDirsDeepFirst t)

def sorted_dirs_descending (fs : VideoFs) (directories : List FsPath) : List FsPath :=
  let collected := directories.foldl
    (fun acc d =>
      if dirExists fs d then
        acc ++ (d :: fs.dirs.filter (fun d' => path_is_relative_to d' d && d' ≠ d))
      else acc)
    []
  sortDirsDeepFirst collected

/-- A directory is empty when no file and no other existing directory lies
under it (`_is_dir_empty` via `iterdir`). -/
def dirEmpty (fs : VideoFs) (d : FsPath) : Bool :=
  !(fs.files.any (fun f => path_is_relative_to f d))
    && !(fs.dirs.any (fun d' => path_is_relative_to d' d && d' ≠ d))

/-- `video_digest._delete_files_with_retries` under a reliable OS: every
targeted file is unlinked (the bounded retry loop collapses; "already
gone" would count as non-fatal).  Returns the filesystem and the deleted
count. -/
def delete_files_with_retries (fs : VideoFs) (paths : List FsPath) : VideoFs × ℕ :=
  (⟨fs.files.filter (fun f => !paths.contains f), fs.dirs⟩, paths.length)

/-- `video_digest._remove_empty_dirs` under the same reliable-OS model:
walk the directory list in order, removing each directory that still
exists and is empty; report (removed, skipped) counts. -/
def remove_empty_dirs : VideoFs → List FsPath → VideoFs × ℕ × ℕ
  | fs, [] => (fs, 0, 0)
  | fs, d :: rest =>
    if dirExists fs d && dirEmpty fs d then
      let fs' : VideoFs := ⟨fs.files, fs.dirs.filter (fun e => e ≠ d)⟩
      let r := remove_empty_dirs fs' rest
      (r.1, r.2.1 + 1, r.2.2)
    else
      let r := remove_empty_dirs fs rest
      (r.1, r.2.1, r.2.2 + 1)

/-- Log events of `_cleanup_temp_artifacts`, by `event_type`. -/
inductive CleanupEvent where
  | config
  | skippedKeepTemp
  | skippedFailures
  | skippedUnsafe
  | filesResult (targeted deleted : ℕ)
  | dirsResult (removed skipped : ℕ)
deriving Repr, DecidableEq

/-- Whether an event is one of the `cleanup_skipped` log events. -/
def CleanupEvent.isSkip : CleanupEvent → Bool
  | CleanupEvent.skippedKeepTemp => true
  | CleanupEvent.skippedFailures => true
  | CleanupEvent.skippedUnsafe => true
  | _ => false

/-- `video_digest._cleanup_temp_artifacts`: gate checks in source order,
then file deletion and empty-directory removal.  Returns the filesystem
after the call and the emitted log events.  (`delete_split_files` is only
logged in `cleanup_config`.) -/
def cleanup_temp_artifacts (output_dir clip_dir temp_dir : FsPath)
    (keep_temp delete_split_files : Bool) (sources : List SourceRecord)
    (job_state : JobState) (fs : VideoFs) : VideoFs × List CleanupEvent :=
  let _ := delete_split_files
  if keep_temp then (fs, [CleanupEvent.config, CleanupEvent.skippedKeepTemp])
  else if has_failures sources job_state then
    (fs, [CleanupEvent.config, CleanupEvent.skippedFailures])
  else if !is_safe_temp_dir temp_dir output_dir then
    (fs, [CleanupEvent.config, CleanupEvent.skippedUnsafe])
  else
    let clip_files := if dirExists fs clip_dir then collect_files fs clip_dir else []
    let other_files := (collect_files fs temp_dir).filter
      (fun f => !path_is_relative_to f clip_dir)
    let targeted := clip_files ++ other_files
    let fr := delete_files_with_retries fs targeted
    let dirs := sorted_dirs_descending fr.1 [clip_dir, temp_dir]
    let dr := remove_empty_dirs fr.1 dirs
    (dr.1,
      [CleanupEvent.config, CleanupEvent.filesResult targeted.length fr.2,
        CleanupEvent.dirsResult dr.2.1 dr.2.2])

/-- `'\x7b'`. -/
def lbrace : Char := Char.ofNat 123

/-- `'\x7d'`. -/
def rbrace : Char := Char.ofNat 125

def backquoteChar : Char := Char.ofNat 96

def dquoteChar : Char := Char.ofNat 34

def jsonWs (c : Char) : Bool :=
  c == ' ' || c == '\t' || c == '\n' || c == '\r'

def jsonSkipWs (cs : List Char) : List Char :=
  cs.dropWhile jsonWs

/-- Literal-prefix consumption for `null` / `true` / `false`. -/
def dropLit (lit : List Char) (cs : List Char) : Option (List Char) :=
  if lit.isPrefixOf cs then some (cs.drop lit.length) else none

/-- JSON string body parser (after the opening quote): handles the
standard escapes; fuel bounds recursion. -/
def jsonParseStringAux : ℕ → List Char → List Char → Option (String × List Char)
  | 0, _, _ => none
  | _ + 1, _, [] => none
  | fuel + 1, acc, c :: rest =>
    if c == dquoteChar then some (String.mk acc.reverse, rest)
    else if c == '\\' then
      match rest with
      | [] => none
      | e :: rest2 =>
        if e == 'n' then jsonParseStringAux fuel ('\n' :: acc) rest2
        else if e == 't' then jsonParseStringAux fuel ('\t' :: acc) rest2
        else if e == 'r' then jsonParseStringAux fuel ('\r' :: acc) rest2
        else if e == 'b' then jsonParseStringAux fuel (Char.ofNat 8 :: acc) rest2
        else if e == 'f' then jsonParseStringAux fuel (Char.ofNat 12 :: acc) rest2
        else if e == dquoteChar || e == '\\' || e == '/' then
          jsonParseStringAux fuel (e :: acc) rest2
        else none
    else jsonParseStringAux fuel (c :: acc) rest

/-- JSON number parser: `-?digits(.digits)?((e|E)(+|-)?digits)?`; an
integer literal yields a Python `int`, otherwise a `float`. -/
def jsonParseNumber (cs : List Char) : Option (PyVal × List Char) :=
  let sign : ℤ × List Char :=
    match cs with
    | c :: r => if c == '-' then (-1, r) else (1, cs)
    | [] => (1, [])
  let ip := sign.2.takeWhile isDigitChar
  let rest0 := sign.2.dropWhile isDigitChar
  if ip.isEmpty then none
  else
    let frac : Option (List Char) × List Char :=
      match rest0 with
      | c :: r =>
        if c == '.' then
          let fd := r.takeWhile isDigitChar
          if fd.isEmpty then (none, rest0) else (some fd, r.dropWhile isDigitChar)
        else (none, rest0)
      | [] => (none, [])
    let expPart : Option ℤ × List Char :=
      match frac.2 with
      | e :: r =>
        if e == 'e' || e == 'E' then
          let esign : ℤ × List Char :=
            match r with
            | c :: r2 => if c == '+' then (1, r2) else if c == '-' then (-1, r2) else (1, r)
            | [] => (1, [])
          let ed := esign.2.takeWhile isDigitChar
          if ed.isEmpty then (none, frac.2)
          else (some (esign.1 * (digitsVal ed : ℤ)), esign.2.dropWhile isDigitChar)
        else (none, frac.2)
      | [] => (none, frac.2)
    let fracDigits := (frac.1).getD []
    let mant : ℚ :=
      (sign.1 : ℚ) * ((digitsVal ip : ℚ) + (digitsVal fracDigits : ℚ) / (10 : ℚ) ^ fracDigits.length)
    match frac.1, expPart.1 with
    | none, none => some (PyVal.int (sign.1 * (digitsVal ip : ℤ)), frac.2)
    | _, none => some (PyVal.float mant, frac.2)
    | _, some ex => some (PyVal.float (mant * (10 : ℚ) ^ ex), expPart.2)

mutual

/-- Model of the external `json.loads` (stdlib): recursive-descent value
parser; fuel (always instantiated generously) bounds the recursion. -/
def jsonParseValue : ℕ → List Char → Option (PyVal × List Char)
  | 0, _ => none
  | fuel + 1, cs =>
    let cs := jsonSkipWs cs
    match cs with
    | [] => none
    | c :: rest =>
      if c == dquoteChar then
        match jsonParseStringAux (fuel + 1) [] rest with
        | some (s, r) => some (PyVal.str s, r)
        | none => none
      else if c == lbrace then
        match jsonSkipWs rest with
        | d :: r2 =>
          if d == rbrace then some (PyVal.dict [], r2)
          else jsonParseMembers fuel (jsonSkipWs rest) []
        | [] => none
      else if c == '[' then
        match jsonSkipWs rest with
        | ']' :: r2 => some (PyVal.list [], r2)
        | _ => jsonParseElems fuel (jsonSkipWs rest) []
      else
        match dropLit ['n', 'u', 'l', 'l'] cs with
        | some r => some (PyVal.none_, r)
        | none =>
          match dropLit ['t', 'r', 'u', 'e'] cs with
          | some r => some (PyVal.bool true, r)
          | none =>
            match dropLit ['f', 'a', 'l', 's', 'e'] cs with
            | some r => some (PyVal.bool false, r)
            | none => jsonParseNumber cs

/-- Comma-separated array elements up to `]`. -/
def jsonParseElems : ℕ → List Char → List PyVal → Option (PyVal × List Char)
  | 0, _, _ => none
  | fuel + 1, cs, acc =>
    match jsonParseValue fuel cs with
    | none => none
    | some (v, r) =>
      match jsonSkipWs r with
      | ',' :: r2 => jsonParseElems fuel r2 (acc ++ [v])
      | ']' :: r2 => some (PyVal.list (acc ++ [v]), r2)
      | _ => none

/-- Comma-separated `"key": value` members up to the closing brace. -/
def jsonParseMembers : ℕ → List Char → List (String × PyVal) → Option (PyVal × List Char)
  | 0, _, _ => none
  | fuel + 1, cs, acc =>
    match jsonSkipWs cs with
    | [] => none
    | c :: r =>
      if c == dquoteChar then
        match jsonParseStringAux (fuel + 1) [] r with
        | none => none
        | some (k, r2) =>
          match jsonSkipWs r2 with
          | ':' :: r3 =>
            match jsonParseValue fuel r3 with
            | none => none
            | some (v, r4) =>
              match jsonSkipWs r4 with
              | ',' :: r5 => jsonParseMembers fuel r5 (acc ++ [(k, v)])
              | d :: r5 =>
                if d == rbrace then some (PyVal.dict (acc ++ [(k, v)]), r5) else none
              | [] => none
          | _ => none
      else none

end

/-- `json.loads` on a whole string: one value, optionally surrounded by
whitespace; anything left over is an error (Python raises
`json.JSONDecodeError`, modelled as `Except.error`). -/
def jsonLoads (s : String) : Except String PyVal :=
  match jsonParseValue (2 * s.length + 16) s.data with
  | some (v, rest) =>
    if (jsonSkipWs rest).isEmpty then Except.ok v else Except.error "Extra data"
  | none => Except.error "Expecting value"

/-- Python `s.strip(c)` for a single strip character. -/
def stripBoth (ch : Char) (cs : List Char) : List Char :=
  ((cs.dropWhile (fun c => c == ch)).reverse.dropWhile (fun c => c == ch)).reverse

/-- Python `s.replace(pat, repl, 1)`. -/
def replaceFirst (pat repl : List Char) : List Char → List Char
  | [] => []
  | c :: rest =>
    if pat.isPrefixOf (c :: rest) then repl ++ (c :: rest).drop pat.length
    else c :: replaceFirst pat repl rest

/-- `ollama_client._parse_json_from_text`.  A raised
`json.JSONDecodeError`/`ValueError` is `Except.error`. -/
def parse_json_from_text (text : String) : Except String PyVal :=
  let stripped := stripChars text.data
  let stripped :=
    if (List.replicate 3 backquoteChar).isPrefixOf stripped then
      let s2 := stripBoth backquoteChar stripped
      let s3 := replaceFirst ['j', 's', 'o', 'n'] [] s2
      stripChars s3
    else stripped
  if stripped.head? == some lbrace && stripped.getLast? == some rbrace then
    jsonLoads (String.mk stripped)
  else
    match List.findIdx? (fun c => c == lbrace) stripped,
        List.findIdx? (fun c => c == rbrace) stripped.reverse with
    | some start, some rIdx =>
      let endIdx := stripped.length - 1 - rIdx
      if start < endIdx then
        jsonLoads (String.mk ((stripped.drop start).take (endIdx + 1 - start)))
      else Except.error "No JSON object found in Ollama response"
    | _, _ => Except.error "No JSON object found in Ollama response"

/-- Total duration of a list of clips (`sum(duration)`). -/
def sumDur (l : List Clip) : ℚ :=
  (l.map Clip.duration).sum

/-- Two photos' fingerprints are farther apart than the duplicate
threshold (vacuously true when either hash is missing); the
separation hypothesis of the non-duplicate selection property. -/
def hashesFar (a b : Photo) : Bool :=
  match hash_to_int a.hash, hash_to_int b.hash with
  | some ha, some hb =>
    decide (DEFAULT_NEAR_DUPLICATE_THRESHOLD < (hamming_distance ha hb : ℤ))
  | _, _ => true

/- ===================== Theorems ===================== -/

theorem bitCount_zero : bitCount 0 = 0 := rfl

theorem hamming_self (x : Nat) : hamming_distance x x = 0 := by
  simp [hamming_distance, Nat.xor_self, bitCount, bitCountAux]

/-- C8 fails on the code: this text contains a valid balanced JSON object
(`\x7b"score": 0.5\x7d`, which `json.loads` accepts) followed by unrelated
text containing a further closing brace, yet `_parse_json_from_text`
raises: it slices from the first `\x7b` to the LAST `\x7d`, producing an
invalid span, instead of the first balanced span. -/
theorem C8_counterexample :
    (∃ q, jsonLoads "\x7b\"score\": 0.5\x7d"
        = Except.ok (PyVal.dict [("score", PyVal.float q)]) ∧ q = 1 / 2)
    ∧ parse_json_from_text "\x7b\"score\": 0.5\x7d trailing \x7d oops"
        = Except.error "Extra data" := by
  constructor
  · refine ⟨_, rfl, ?_⟩
    simp [show jsonSkipWs [' ', '0', '.', '5', Char.ofNat 125]
          = ['0', '.', '5', Char.ofNat 125] from rfl,
      show List.takeWhile isDigitChar ['0', '.', '5', Char.ofNat 125] = ['0'] from rfl,
      show List.dropWhile isDigitChar ['0', '.', '5', Char.ofNat 125]
          = ['.', '5', Char.ofNat 125] from rfl,
      show List.takeWhile isDigitChar ['5', Char.ofNat 125] = ['5'] from rfl,
      show List.dropWhile isDigitChar ['5', Char.ofNat 125] = [Char.ofNat 125] from rfl,
      show digitsVal ['0'] = 0 from rfl, show digitsVal ['5'] = 5 from rfl]
    norm_num
  · rfl

/-- C8 (amended): on text that is not backtick-fenced and does not itself
begin with `\x7b` and end with `\x7d`, the parser extracts the span from
the FIRST `\x7b` to the LAST `\x7d` and parses that span with
`json.loads`; in particular a balanced object surrounded by brace-free
extraneous text still parses successfully (while further braces after the
object make the extracted span invalid, as the counterexample shows). -/
theorem C8_amended :
    (∀ (text : String) (i j : ℕ),
      (List.replicate 3 backquoteChar).isPrefixOf (stripChars text.data) = false →
      (((stripChars text.data).head? == some lbrace)
        && ((stripChars text.data).getLast? == some rbrace)) = false →
      List.findIdx? (fun c => c == lbrace) (stripChars text.data) = some i →
      List.findIdx? (fun c => c == rbrace) (stripChars text.data).reverse = some j →
      i < (stripChars text.data).length - 1 - j →
      parse_json_from_text text
        = jsonLoads (String.mk (((stripChars text.data).drop i).take
            ((stripChars text.data).length - 1 - j + 1 - i))))
    ∧ (∃ q, parse_json_from_text "junk \x7b\"score\": 0.5\x7d"
        = Except.ok (PyVal.dict [("score", PyVal.float q)]) ∧ q = 1 / 2) := by
  constructor
  · intro text i j h1 h2 h3 h4 h5
    unfold parse_json_from_text
    simp only [h1, Bool.false_eq_true, if_false, h2, h3, h4]
    rw [if_pos h5]
  · refine ⟨_, rfl, ?_⟩
    simp [show jsonSkipWs [' ', '0', '.', '5', Char.ofNat 125]
          = ['0', '.', '5', Char.ofNat 125] from rfl,
      show List.takeWhile isDigitChar ['0', '.', '5', Char.ofNat 125] = ['0'] from rfl,
      show List.dropWhile isDigitChar ['0', '.', '5', Char.ofNat 125]
          = ['.', '5', Char.ofNat 125] from rfl,
      show List.takeWhile isDigitChar ['5', Char.ofNat 125] = ['5'] from rfl,
      show List.dropWhile isDigitChar ['5', Char.ofNat 125] = [Char.ofNat 125] from rfl,
      show digitsVal ['0'] = 0 from rfl, show digitsVal ['5'] = 5 from rfl]
    norm_num

theorem C8_witness :
    (List.replicate 3 backquoteChar).isPrefixOf
        (stripChars "pre \x7b\"a\": 1\x7d post".data) = false
    ∧ (((stripChars "pre \x7b\"a\": 1\x7d post".data).head? == some lbrace)
        && ((stripChars "pre \x7b\"a\": 1\x7d post".data).getLast? == some rbrace)) = false
    ∧ List.findIdx? (fun c => c == lbrace)
        (stripChars "pre \x7b\"a\": 1\x7d post".data) = some 4
    ∧ List.findIdx? (fun c => c == rbrace)
        (stripChars "pre \x7b\"a\": 1\x7d post".data).reverse = some 5
    ∧ parse_json_from_text "pre \x7b\"a\": 1\x7d post"
        = jsonLoads (String.mk (((stripChars "pre \x7b\"a\": 1\x7d post".data).drop 4).take
            ((stripChars "pre \x7b\"a\": 1\x7d post".data).length - 1 - 5 + 1 - 4))) :=
  ⟨rfl, rfl, rfl, rfl,
    C8_amended.1 "pre \x7b\"a\": 1\x7d post" 4 5 rfl rfl rfl rfl (by decide)⟩

theorem hamming_comm (x y : Nat) : hamming_distance x y = hamming_distance y x := by
  simp [hamming_distance, Nat.xor_comm]

theorem clamp01_nonneg (x : ℚ) : 0 ≤ clamp01 x := by
  unfold clamp01; split_ifs <;> linarith

theorem clamp01_le_one (x : ℚ) : clamp01 x ≤ 1 := by
  unfold clamp01; split_ifs <;> linarith

theorem clamp01_clamp01_sub (s a b : ℚ) (hs : s ≤ 1) (ha : 0 ≤ a) (hb : 0 ≤ b) :
    clamp01 (clamp01 (s - a) - b) = clamp01 (s - (a + b)) := by
  unfold clamp01; split_ifs <;> linarith

theorem qualityPenalty_nonneg (quality : QualityFlags) (width height : ℤ) :
    0 ≤ qualityPenalty quality width height := by
  unfold qualityPenalty
  unfold DARK_PENALTY BLUR_STRONG_PENALTY BLUR_PENALTY LOW_RESOLUTION_PENALTY QUALITY_PENALTY_SCALE
  split_ifs <;> norm_num

theorem riskPenalty_nonneg (risks : RiskFlags) : 0 ≤ riskPenalty risks := by
  unfold riskPenalty
  split_ifs <;> norm_num

theorem apply_quality_corrections_eq (score : ℚ) (quality : QualityFlags)
    (width height : ℤ) (h : score ≤ 1) :
    apply_quality_corrections score quality width height
      = clamp01 (score - qualityPenalty quality width height) := by
  unfold apply_quality_corrections qualityPenalty
  rw [if_neg (not_lt.mpr h)]
  split_ifs <;> (congr 1; ring)

theorem apply_risk_penalties_eq (score : ℚ) (risks : RiskFlags) :
    apply_risk_penalties score risks = clamp01 (score - riskPenalty risks) := by
  unfold apply_risk_penalties riskPenalty
  split_ifs <;> (congr 1; ring)

/-- C9: for every starting score in [0,1], every set of quality flags with
dimensions and every set of risk flags, the quality-correction pass and the
risk-penalty pass commute: each subtracts its fixed penalties and clamps to
[0,1], and applying the two clamped passes in either order yields the same
final score. -/
theorem C9_quality_risk_passes_commute (score : ℚ) (quality : QualityFlags)
    (width height : ℤ) (risks : RiskFlags) (h0 : 0 ≤ score) (h1 : score ≤ 1) :
    apply_risk_penalties (apply_quality_corrections score quality width height) risks
      = apply_quality_corrections (apply_risk_penalties score risks) quality width height := by
  have hq := qualityPenalty_nonneg quality width height
  have hr := riskPenalty_nonneg risks
  rw [apply_quality_corrections_eq score quality width height h1,
    apply_risk_penalties_eq score risks,
    apply_risk_penalties_eq (clamp01 (score - qualityPenalty quality width height)) risks,
    apply_quality_corrections_eq (clamp01 (score - riskPenalty risks)) quality width height
      (clamp01_le_one _),
    clamp01_clamp01_sub score (qualityPenalty quality width height) (riskPenalty risks) h1 hq hr,
    clamp01_clamp01_sub score (riskPenalty risks) (qualityPenalty quality width height) h1 hr hq]
  congr 1
  ring

theorem C9_witness :
    (0 : ℚ) ≤ 9 / 10 ∧ (9 : ℚ) / 10 ≤ 1 ∧
      apply_risk_penalties (apply_quality_corrections (9 / 10) ⟨true, false, true, false⟩ 800 600)
          ⟨true, false, false, true⟩
        = apply_quality_corrections
            (apply_risk_penalties (9 / 10) ⟨true, false, false, true⟩)
            ⟨true, false, true, false⟩ 800 600 :=
  ⟨by norm_num, by norm_num,
    C9_quality_risk_passes_commute (9 / 10) ⟨true, false, true, false⟩ 800 600
      ⟨true, false, false, true⟩ (by norm_num) (by norm_num)⟩

/-- C10: for every input score strictly greater than 1, the quality
correction first divides the score by 100 (treating it as a 0–100-scale
value) and only then subtracts the quality penalties and clamps to [0,1].
This rescaling is part of `apply_quality_corrections`. -/
theorem C10_scores_above_one_are_rescaled (score : ℚ) (quality : QualityFlags)
    (width height : ℤ) (h : 1 < score) :
    apply_quality_corrections score quality width height
      = clamp01 (score / 100 - qualityPenalty quality width height) := by
  unfold apply_quality_corrections qualityPenalty
  rw [if_pos h]
  split_ifs <;> (congr 1; ring)

theorem C10_witness :
    (1 : ℚ) < 85 ∧
      apply_quality_corrections 85 ⟨false, false, false, false⟩ 1920 1080
        = clamp01 (85 / 100 - qualityPenalty ⟨false, false, false, false⟩ 1920 1080) :=
  ⟨by norm_num,
    C10_scores_above_one_are_rescaled 85 ⟨false, false, false, false⟩ 1920 1080 (by norm_num)⟩

/-- C1: the claim fails on the code.  `_build_photo_plan` with resume
enabled calls `ScoreStore(paths.db_path, create=False)`, but
`ScoreStore.__init__` accepts no `create` parameter, so the call raises
`TypeError`; moreover `ScoreStore._init_db` (run by every successful
construction) unconditionally creates the database file when it is
missing, so no read-only mode exists. -/
theorem C1_resume_plan_raises_and_init_creates :
    (∀ fs dbPath, build_photo_plan true false fs dbPath
        = Except.error "TypeError: unexpected keyword argument")
    ∧ (∀ fs dbPath, dbPath ∈ init_db fs dbPath) := by
  constructor
  · intro fs dbPath
    rfl
  · intro fs dbPath
    unfold init_db
    split_ifs with h
    · exact h
    · exact List.mem_cons_self dbPath fs

theorem fetch_row_upsert_row_self (rows : List (String × StoreRow)) (p : String)
    (row : StoreRow) : fetch_row (upsert_row rows p row) p = some row := by
  induction rows with
  | nil => simp [upsert_row, fetch_row]
  | cons kv rest ih =>
    by_cases h : kv.1 = p
    · simp [upsert_row, fetch_row, h]
    · simp only [upsert_row, fetch_row, h, if_neg, if_false]
      simpa [fetch_row, h] using ih

/-- C6: after `upsert(path, fingerprint, score, analysis, quality)`, `get`
with the same fingerprint returns the stored record, `get` with any other
fingerprint returns absent; in general `get` returns a record only when the
stored fingerprint matches the supplied one (stale entries are absent). -/
theorem C6_upsert_get_contract (store : ScoreStore) (p h : String) (sc : ℚ)
    (analysis quality : Option (List (String × PyVal))) (now : String) :
    (store.upsert p h sc analysis quality now).get p h
        = some ⟨sc, analysis, quality⟩
    ∧ (∀ h', h' ≠ h → (store.upsert p h sc analysis quality now).get p h' = none)
    ∧ (∀ st : ScoreStore, ∀ fp fh : String, ∀ rec : CachedScore,
        st.get fp fh = some rec →
          ∃ row, fetch_row st.rows fp = some row ∧ row.file_hash = fh) := by
  refine ⟨?_, ?_, ?_⟩
  · unfold ScoreStore.get ScoreStore.upsert
    rw [fetch_row_upsert_row_self]
    simp [dump_json, load_json]
  · intro h' hne
    unfold ScoreStore.get ScoreStore.upsert
    rw [fetch_row_upsert_row_self]
    simp only []
    rw [if_pos]
    exact fun hcontra => hne (hcontra.symm)
  · intro st fp fh rec hget
    unfold ScoreStore.get at hget
    cases hrow : fetch_row st.rows fp with
    | none => simp [hrow] at hget
    | some row =>
      rw [hrow] at hget
      by_cases hh : row.file_hash = fh
      · exact ⟨row, rfl, hh⟩
      · simp only [ne_eq, hh, not_false_iff, if_true, if_pos] at hget
        exact Option.noConfusion hget

theorem C6_witness :
    (ScoreStore.upsert ⟨[]⟩ "p" "h" (1 / 2) (some [("score", PyVal.float (1 / 2))]) none "t0").get
        "p" "h" = some ⟨1 / 2, some [("score", PyVal.float (1 / 2))], none⟩
    ∧ (ScoreStore.upsert ⟨[]⟩ "p" "h" (1 / 2) (some [("score", PyVal.float (1 / 2))]) none "t0").get
        "p" "g" = none :=
  ⟨(C6_upsert_get_contract ⟨[]⟩ "p" "h" (1 / 2) (some [("score", PyVal.float (1 / 2))]) none "t0").1,
    (C6_upsert_get_contract ⟨[]⟩ "p" "h" (1 / 2) (some [("score", PyVal.float (1 / 2))]) none "t0").2.1
      "g" (by decide)⟩

theorem dGet_dSet_self (d : List (String × PyVal)) (k : String) (v : PyVal) :
    dGet (dSet d k v) k = some v := by
  induction d with
  | nil => simp [dSet, dGet]
  | cons kv rest ih =>
    by_cases h : kv.1 = k
    · simp [dSet, dGet, h]
    · simp [dSet, dGet, h, ih]

theorem dGet_dSet_ne (d : List (String × PyVal)) (k : String) (v : PyVal) (k' : String)
    (h : k ≠ k') : dGet (dSet d k v) k' = dGet d k' := by
  induction d with
  | nil => simp [dSet, dGet, h]
  | cons kv rest ih =>
    by_cases hk : kv.1 = k
    · simp [dSet, dGet, hk, h]
    · simp [dSet, dGet, hk, ih]

theorem dGet_dSetdefault_ne (d : List (String × PyVal)) (k : String) (v : PyVal) (k' : String)
    (h : k ≠ k') : dGet (dSetdefault d k v) k' = dGet d k' := by
  unfold dSetdefault
  cases dGet d k
  · exact dGet_dSet_ne d k v k' h
  · rfl

theorem dGet_dSetdefault_isSome (d : List (String × PyVal)) (k : String) (v : PyVal) :
    (dGet (dSetdefault d k v) k).isSome = true := by
  unfold dSetdefault
  cases h : dGet d k
  · simp [dGet_dSet_self]
  · simp [h]

theorem dGet_ite (c : Prop) [Decidable c] (x y : List (String × PyVal)) (k : String) :
    dGet (if c then x else y) k = if c then dGet x k else dGet y k := by
  split <;> rfl

theorem normalize_ok_score (d : List (String × PyVal)) :
    ∀ a, normalize_analysis (PyVal.dict d) = Except.ok a →
      dGet a "score" = some (PyVal.float (clamp01
        (match coerce_float (pyGet d "overall_score") with
          | some v => v
          | none =>
            match coerce_float (pyGet d "score") with
            | some v => v
            | none => 0))) := by
  intro a ha
  simp only [normalize_analysis] at ha
  injection ha with ha
  subst ha
  rw [dGet_dSet_self]
  simp [parse_score_result, pyGet, dGet_dSet_self, dGet_dSet_ne, dGet_dSetdefault_ne,
    dGet_ite, ite_self]

theorem dGet_of_isList (x : List (String × PyVal)) (k : String)
    (h : ((dGet x k).getD PyVal.none_).isList = true) :
    ∃ ts, dGet x k = some (PyVal.list ts) := by
  cases hv : dGet x k with
  | none => rw [hv] at h; simp [PyVal.isList] at h
  | some w =>
    rw [hv] at h
    cases w <;> simp [PyVal.isList] at h
    exact ⟨_, rfl⟩

theorem normalize_ok_tags (d : List (String × PyVal)) :
    ∀ a, normalize_analysis (PyVal.dict d) = Except.ok a →
      ∃ ts, dGet a "tags" = some (PyVal.list ts) := by
  intro a ha
  simp only [normalize_analysis] at ha
  injection ha with ha
  subst ha
  simp only [dGet_dSet_self, dGet_dSet_ne, dGet_dSetdefault_ne, dGet_ite, ite_self,
    ne_eq, String.reduceEq, not_false_eq_true]
  split_ifs with hc
  · exact ⟨[], by simp [dGet_dSet_self]⟩
  · exact dGet_of_isList _ _ (by simpa [pyGet, dGet_dSetdefault_ne] using hc)

theorem normalize_ok_risks (d : List (String × PyVal)) :
    ∀ a, normalize_analysis (PyVal.dict d) = Except.ok a →
      ∃ rs, dGet a "risks" = some (PyVal.dict rs)
        ∧ (dGet rs "blur").isSome = true ∧ (dGet rs "dark").isSome = true
        ∧ (dGet rs "overexposed").isSome = true
        ∧ (dGet rs "out_of_focus").isSome = true := by
  intro a ha
  simp only [normalize_analysis] at ha
  injection ha with ha
  subst ha
  simp only [dGet_dSet_self, dGet_dSet_ne, ne_eq, String.reduceEq, not_false_eq_true]
  refine ⟨_, rfl, ?_, ?_, ?_, ?_⟩ <;>
    simp [dGet_dSetdefault_ne, dGet_dSetdefault_isSome]

theorem normalize_error_of_non_dict (v : PyVal) (h : ∀ d, v ≠ PyVal.dict d) :
    ∃ e, normalize_analysis v = Except.error e := by
  cases v with
  | dict d => exact absurd rfl (h d)
  | none_ => exact ⟨_, rfl⟩
  | bool b => exact ⟨_, rfl⟩
  | int n => exact ⟨_, rfl⟩
  | float q => exact ⟨_, rfl⟩
  | str s => exact ⟨_, rfl⟩
  | list xs => exact ⟨_, rfl⟩

theorem normalize_str_score_coerced (d : List (String × PyVal)) (s : String) (x : ℚ)
    (h1 : dGet d "overall_score" = some (PyVal.str s))
    (h2 : pyFloatOfString s = some x) :
    ∀ a, normalize_analysis (PyVal.dict d) = Except.ok a →
      dGet a "score" = some (PyVal.float (clamp01 x)) := by
  intro a ha
  rw [normalize_ok_score d a ha]
  simp [pyGet, h1, coerce_float, h2]

theorem normalize_default_zero (d : List (String × PyVal))
    (h1 : coerce_float (pyGet d "overall_score") = none)
    (h2 : coerce_float (pyGet d "score") = none) :
    ∀ a, normalize_analysis (PyVal.dict d) = Except.ok a →
      dGet a "score" = some (PyVal.float 0) := by
  intro a ha
  rw [normalize_ok_score d a ha]
  simp [h1, h2, clamp01]

/-- C5: `normalize_analysis` raises only when the input is not a mapping;
for every mapping it returns a result whose `score` lies in [0,1], whose
`tags` is always a list, and whose `risks` is a mapping containing the four
flags `blur`, `dark`, `overexposed`, `out_of_focus`; numeric-looking string
scores are coerced via `float(_)` (then clamped) and non-numeric scores
default to 0. -/
theorem C5_normalize_canonical (v : PyVal) :
    ((∀ d, v ≠ PyVal.dict d) → ∃ e, normalize_analysis v = Except.error e)
    ∧ (∀ d, v = PyVal.dict d →
        ∃ a, normalize_analysis v = Except.ok a
          ∧ (∃ s, dGet a "score" = some (PyVal.float s) ∧ 0 ≤ s ∧ s ≤ 1)
          ∧ (∃ ts, dGet a "tags" = some (PyVal.list ts))
          ∧ (∃ rs, dGet a "risks" = some (PyVal.dict rs)
              ∧ (dGet rs "blur").isSome = true ∧ (dGet rs "dark").isSome = true
              ∧ (dGet rs "overexposed").isSome = true
              ∧ (dGet rs "out_of_focus").isSome = true)
          ∧ (∀ s x, dGet d "overall_score" = some (PyVal.str s) →
              pyFloatOfString s = some x → dGet a "score" = some (PyVal.float (clamp01 x)))
          ∧ (coerce_float (pyGet d "overall_score") = none →
              coerce_float (pyGet d "score") = none →
              dGet a "score" = some (PyVal.float 0))) := by
  constructor
  · exact normalize_error_of_non_dict v
  · intro d hv
    subst hv
    refine ⟨_, rfl, ?_, normalize_ok_tags d _ rfl, normalize_ok_risks d _ rfl, ?_, ?_⟩
    · exact ⟨_, normalize_ok_score d _ rfl, clamp01_nonneg _, clamp01_le_one _⟩
    · intro s x h1 h2
      exact normalize_str_score_coerced d s x h1 h2 _ rfl
    · intro h1 h2
      exact normalize_default_zero d h1 h2 _ rfl

theorem C5_witness :
    (∃ e, normalize_analysis (PyVal.str "nope") = Except.error e)
    ∧ ∃ a, normalize_analysis (PyVal.dict [("overall_score", PyVal.str "0.9")]) = Except.ok a
        ∧ dGet a "score" = some (PyVal.float (clamp01 (9 / 10))) := by
  constructor
  · exact (C5_normalize_canonical (PyVal.str "nope")).1 (fun d h => PyVal.noConfusion h)
  · obtain ⟨a, ha, _, _, _, hco, _⟩ :=
      (C5_normalize_canonical (PyVal.dict [("overall_score", PyVal.str "0.9")])).2 _ rfl
    refine ⟨a, ha, hco "0.9" (9 / 10) (by simp [dGet]) ?_⟩
    simp [pyFloatOfString,
      show stripChars "0.9".data = ['0', '.', '9'] from rfl,
      show List.takeWhile isDigitChar ['0', '.', '9'] = ['0'] from rfl,
      show List.dropWhile isDigitChar ['0', '.', '9'] = ['.', '9'] from rfl,
      show List.takeWhile isDigitChar ['9'] = ['9'] from rfl,
      show List.dropWhile isDigitChar ['9'] = ([] : List Char) from rfl,
      show digitsVal ['0'] = 0 from rfl, show digitsVal ['9'] = 9 from rfl]

/-- C7: cleanup deletes nothing from the working tree unless all three
gates hold — `keep_temp` not requested, no source error and no `failed`
ledger entry, and the temp directory named `temp` resolving under the
output directory; when any gate fails the filesystem is returned untouched
and a `cleanup_skipped` event is reported. -/
theorem C7_cleanup_gates (output_dir clip_dir temp_dir : FsPath)
    (keep_temp delete_split_files : Bool) (sources : List SourceRecord)
    (job_state : JobState) (fs : VideoFs)
    (h : keep_temp = true ∨ has_failures sources job_state = true
      ∨ is_safe_temp_dir temp_dir output_dir = false) :
    (cleanup_temp_artifacts output_dir clip_dir temp_dir keep_temp delete_split_files
        sources job_state fs).1 = fs
    ∧ ∃ e ∈ (cleanup_temp_artifacts output_dir clip_dir temp_dir keep_temp
        delete_split_files sources job_state fs).2, e.isSkip = true := by
  unfold cleanup_temp_artifacts
  by_cases hk : keep_temp = true
  · simp [hk, CleanupEvent.isSkip]
  · rw [if_neg (by simpa using hk)]
    by_cases hf : has_failures sources job_state = true
    · simp [hf, CleanupEvent.isSkip]
    · rw [if_neg (by simpa using hf)]
      have hs : is_safe_temp_dir temp_dir output_dir = false := by
        rcases h with h | h | h
        · exact absurd h hk
        · exact absurd h hf
        · exact h
      simp [hs, CleanupEvent.isSkip]

theorem C7_witness :
    (cleanup_temp_artifacts ["out"] ["out", "clips"] ["out", "temp"] false false []
        [("score", [("k", ⟨"failed"⟩)])] ⟨[["out", "temp", "f.mp4"]], [["out", "temp"]]⟩).1
      = ⟨[["out", "temp", "f.mp4"]], [["out", "temp"]]⟩
    ∧ ∃ e ∈ (cleanup_temp_artifacts ["out"] ["out", "clips"] ["out", "temp"] false false []
        [("score", [("k", ⟨"failed"⟩)])] ⟨[["out", "temp", "f.mp4"]], [["out", "temp"]]⟩).2,
      e.isSkip = true :=
  C7_cleanup_gates ["out"] ["out", "clips"] ["out", "temp"] false false []
    [("score", [("k", ⟨"failed"⟩)])] ⟨[["out", "temp", "f.mp4"]], [["out", "temp"]]⟩
    (Or.inr (Or.inl (by decide)))

theorem selectLoop_total_le (maxClips : ℤ) (limit : ℚ) (dedupe : Bool) (threshold : ℤ) :
    ∀ (l sel : List Clip) (tot : ℚ) (rem : ℕ) (hs : List Nat), tot ≤ limit →
      (selectLoop maxClips limit dedupe threshold l sel tot rem hs).2.1 ≤ limit := by
  intro l
  induction l with
  | nil => intro sel tot rem hs h; simpa [selectLoop] using h
  | cons c rest ih =>
    intro sel tot rem hs h
    rw [selectLoop]
    by_cases h1 : maxClips ≤ (sel.length : ℤ)
    · rw [if_pos h1]; exact h
    · rw [if_neg h1]
      by_cases h2 : tot + c.duration > limit
      · rw [if_pos h2]; exact ih sel tot rem hs h
      · rw [if_neg h2]
        have hle : tot + c.duration ≤ limit := not_lt.mp h2
        cases hh : hash_to_int c.frame_hash with
        | some hv =>
          dsimp only
          by_cases h3 : (dedupe && is_near_duplicate hv hs threshold) = true
          · rw [if_pos h3]; exact ih sel tot (rem + 1) hs h
          · rw [if_neg h3]
            by_cases h4 : limit ≤ tot + c.duration
            · rw [if_pos h4]; exact hle
            · rw [if_neg h4]; exact ih (sel ++ [c]) (tot + c.duration) rem (hs ++ [hv]) hle
        | none =>
          dsimp only
          by_cases h4 : limit ≤ tot + c.duration
          · rw [if_pos h4]; exact hle
          · rw [if_neg h4]; exact ih (sel ++ [c]) (tot + c.duration) rem hs hle

theorem selectLoop_count_le (maxClips : ℤ) (limit : ℚ) (dedupe : Bool) (threshold : ℤ) :
    ∀ (l sel : List Clip) (tot : ℚ) (rem : ℕ) (hs : List Nat),
      (sel.length : ℤ) ≤ maxClips →
      (((selectLoop maxClips limit dedupe threshold l sel tot rem hs).1.length : ℤ)
        ≤ maxClips) := by
  intro l
  induction l with
  | nil => intro sel tot rem hs h; simpa [selectLoop] using h
  | cons c rest ih =>
    intro sel tot rem hs h
    rw [selectLoop]
    by_cases h1 : maxClips ≤ (sel.length : ℤ)
    · rw [if_pos h1]; exact h
    · rw [if_neg h1]
      have hlt : (sel.length : ℤ) < maxClips := not_le.mp h1
      have hsucc : ((sel ++ [c]).length : ℤ) ≤ maxClips := by
        simp only [List.length_append, List.length_cons, List.length_nil]
        push_cast
        omega
      by_cases h2 : tot + c.duration > limit
      · rw [if_pos h2]; exact ih sel tot rem hs h
      · rw [if_neg h2]
        cases hh : hash_to_int c.frame_hash with
        | some hv =>
          dsimp only
          by_cases h3 : (dedupe && is_near_duplicate hv hs threshold) = true
          · rw [if_pos h3]; exact ih sel tot (rem + 1) hs h
          · rw [if_neg h3]
            by_cases h4 : limit ≤ tot + c.duration
            · rw [if_pos h4]; exact hsucc
            · rw [if_neg h4]
              exact ih (sel ++ [c]) (tot + c.duration) rem (hs ++ [hv]) hsucc
        | none =>
          dsimp only
          by_cases h4 : limit ≤ tot + c.duration
          · rw [if_pos h4]; exact hsucc
          · rw [if_neg h4]
            exact ih (sel ++ [c]) (tot + c.duration) rem hs hsucc

theorem sumDur_append_one (l : List Clip) (c : Clip) :
    sumDur (l ++ [c]) = sumDur l + c.duration := by
  simp [sumDur]

theorem selectLoop_total_eq_sum (maxClips : ℤ) (limit : ℚ) (dedupe : Bool) (threshold : ℤ) :
    ∀ (l sel : List Clip) (tot : ℚ) (rem : ℕ) (hs : List Nat), tot = sumDur sel →
      (selectLoop maxClips limit dedupe threshold l sel tot rem hs).2.1
        = sumDur (selectLoop maxClips limit dedupe threshold l sel tot rem hs).1 := by
  intro l
  induction l with
  | nil => intro sel tot rem hs h; simpa [selectLoop] using h
  | cons c rest ih =>
    intro sel tot rem hs h
    rw [selectLoop]
    by_cases h1 : maxClips ≤ (sel.length : ℤ)
    · rw [if_pos h1]; exact h
    · rw [if_neg h1]
      have hplus : tot + c.duration = sumDur (sel ++ [c]) := by
        rw [sumDur_append_one, h]
      by_cases h2 : tot + c.duration > limit
      · rw [if_pos h2]; exact ih sel tot rem hs h
      · rw [if_neg h2]
        cases hh : hash_to_int c.frame_hash with
        | some hv =>
          dsimp only
          by_cases h3 : (dedupe && is_near_duplicate hv hs threshold) = true
          · rw [if_pos h3]; exact ih sel tot (rem + 1) hs h
          · rw [if_neg h3]
            by_cases h4 : limit ≤ tot + c.duration
            · rw [if_pos h4]; exact hplus
            · rw [if_neg h4]
              exact ih (sel ++ [c]) (tot + c.duration) rem (hs ++ [hv]) hplus
        | none =>
          dsimp only
          by_cases h4 : limit ≤ tot + c.duration
          · rw [if_pos h4]; exact hplus
          · rw [if_neg h4]; exact ih (sel ++ [c]) (tot + c.duration) rem hs hplus

/-- C3: `_select_clips_for_source` walks eligible clips in descending score
order and skips (rather than stops at) clips that would push the running
total over `min(max_source_seconds, target_digest_seconds)`; the selected
clips' total duration never exceeds that limit (when the limit is
non-negative), never more than `max_selected_clips` clips are selected
(when that bound is non-negative), and for three 50-second clips with
`max_source_seconds = 300`, `target_digest_seconds = 60` and dedup
disabled, exactly one clip is selected with `total_selected_seconds = 50.0`. -/
theorem C3_clip_selection (records : List Clip) (max_source_seconds : ℤ)
    (max_selected_clips : ℤ) (target_digest_seconds : ℤ) (dedupe_enabled : Bool)
    (hamming_threshold : ℤ) (existing_hashes : List Nat) :
    ((0 : ℤ) ≤ min max_source_seconds target_digest_seconds →
      sumDur (select_clips_for_source records max_source_seconds max_selected_clips
          target_digest_seconds dedupe_enabled hamming_threshold existing_hashes).1
        ≤ ((min max_source_seconds target_digest_seconds : ℤ) : ℚ))
    ∧ ((0 : ℤ) ≤ max_selected_clips →
      (((select_clips_for_source records max_source_seconds max_selected_clips
          target_digest_seconds dedupe_enabled hamming_threshold existing_hashes).1.length : ℤ)
        ≤ max_selected_clips))
    ∧ ((select_clips_for_source
          [⟨"a", false, some (9 / 10), true, some 100, 50, HashField.int 1⟩,
            ⟨"b", false, some (8 / 10), true, some 100, 50, HashField.int 2⟩,
            ⟨"c", false, some (7 / 10), true, some 100, 50, HashField.int 3⟩]
          300 6 60 false 8 []).1
        = [⟨"a", false, some (9 / 10), true, some 100, 50, HashField.int 1⟩]
      ∧ (select_clips_for_source
          [⟨"a", false, some (9 / 10), true, some 100, 50, HashField.int 1⟩,
            ⟨"b", false, some (8 / 10), true, some 100, 50, HashField.int 2⟩,
            ⟨"c", false, some (7 / 10), true, some 100, 50, HashField.int 3⟩]
          300 6 60 false 8 []).2.1.selected = 1
      ∧ (select_clips_for_source
          [⟨"a", false, some (9 / 10), true, some 100, 50, HashField.int 1⟩,
            ⟨"b", false, some (8 / 10), true, some 100, 50, HashField.int 2⟩,
            ⟨"c", false, some (7 / 10), true, some 100, 50, HashField.int 3⟩]
          300 6 60 false 8 []).2.1.total_selected_seconds = 50) := by
  refine ⟨?_, ?_, ?_⟩
  · intro h0
    have hcast : (0 : ℚ) ≤ ((min max_source_seconds target_digest_seconds : ℤ) : ℚ) := by
      exact_mod_cast h0
    unfold select_clips_for_source
    rw [← selectLoop_total_eq_sum max_selected_clips _ dedupe_enabled hamming_threshold
      _ [] 0 0 existing_hashes (by simp [sumDur])]
    exact selectLoop_total_le max_selected_clips _ dedupe_enabled hamming_threshold
      _ [] 0 0 existing_hashes hcast
  · intro hmc
    unfold select_clips_for_source
    exact selectLoop_count_le max_selected_clips _ dedupe_enabled hamming_threshold
      _ [] 0 0 existing_hashes (by simpa using hmc)
  · refine ⟨?_, ?_, ?_⟩ <;>
      norm_num [select_clips_for_source, selectLoop, sortClipsDesc, insertClipDesc,
        clipScore, passes_quality_gate, MIN_BRIGHTNESS_GATE, hash_to_int,
        is_near_duplicate, score_stats, sortRatAsc, insertRatAsc, pyRound3,
        has_valid_score]

theorem C3_witness :
    (0 : ℤ) ≤ min 300 60
    ∧ (0 : ℤ) ≤ 6
    ∧ sumDur (select_clips_for_source
        [⟨"a", false, some (9 / 10), true, some 100, 50, HashField.int 1⟩,
          ⟨"b", false, some (8 / 10), true, some 100, 50, HashField.int 2⟩,
          ⟨"c", false, some (7 / 10), true, some 100, 50, HashField.int 3⟩]
        300 6 60 false 8 []).1 ≤ ((min 300 60 : ℤ) : ℚ)
    ∧ (((select_clips_for_source
        [⟨"a", false, some (9 / 10), true, some 100, 50, HashField.int 1⟩,
          ⟨"b", false, some (8 / 10), true, some 100, 50, HashField.int 2⟩,
          ⟨"c", false, some (7 / 10), true, some 100, 50, HashField.int 3⟩]
        300 6 60 false 8 []).1.length : ℤ) ≤ 6) :=
  ⟨by norm_num, by norm_num,
    (C3_clip_selection
      [⟨"a", false, some (9 / 10), true, some 100, 50, HashField.int 1⟩,
        ⟨"b", false, some (8 / 10), true, some 100, 50, HashField.int 2⟩,
        ⟨"c", false, some (7 / 10), true, some 100, 50, HashField.int 3⟩]
      300 6 60 false 8 []).1 (by norm_num),
    (C3_clip_selection
      [⟨"a", false, some (9 / 10), true, some 100, 50, HashField.int 1⟩,
        ⟨"b", false, some (8 / 10), true, some 100, 50, HashField.int 2⟩,
        ⟨"c", false, some (7 / 10), true, some 100, 50, HashField.int 3⟩]
      300 6 60 false 8 []).2.1 (by norm_num)⟩

theorem insertDesc_eq_cons (p : Photo) (l : List Photo)
    (h : ∀ q, l.head? = some q → photoScore q ≤ photoScore p) :
    insertDesc p l = p :: l := by
  cases l with
  | nil => rfl
  | cons q t => rw [insertDesc, if_pos (h q rfl)]

theorem sortPhotosDesc_eq_self (l : List Photo)
    (h : l.Chain' (fun a b => photoScore b ≤ photoScore a)) :
    sortPhotosDesc l = l := by
  induction l with
  | nil => rfl
  | cons p t ih =>
    rw [sortPhotosDesc, ih h.tail]
    cases t with
    | nil => rfl
    | cons q t' =>
      rw [insertDesc, if_pos (List.chain'_cons.mp h).1]

theorem findClusterIdxAux_eq_none (h : Nat) (t : ℤ) (hs : List Nat)
    (hfar : ∀ b ∈ hs, ¬ ((hamming_distance h b : ℤ) ≤ t)) :
    ∀ i, findClusterIdxAux h t hs i = none := by
  induction hs with
  | nil => intro i; rfl
  | cons b rest ih =>
    intro i
    rw [findClusterIdxAux, if_neg]
    · exact ih (fun b' hb' => hfar b' (List.mem_cons_of_mem _ hb')) (i + 1)
    · simp only [is_near_duplicate, List.any_cons, List.any_nil, Bool.or_false,
        decide_eq_true_eq]
      exact hfar b (List.mem_cons_self _ _)

theorem foldl_clusterStep_fresh :
    ∀ (l : List Photo) (cs : List (List Photo)) (hs : List Nat) (ug : List Photo),
      (∀ p ∈ l, (hash_to_int p.hash).isSome = true) →
      (∀ p ∈ l, ∀ hp, hash_to_int p.hash = some hp →
        ∀ b ∈ hs, ¬ ((hamming_distance hp b : ℤ) ≤ DEFAULT_NEAR_DUPLICATE_THRESHOLD)) →
      l.Pairwise (fun a b => hashesFar b a = true) →
      l.foldl clusterStep ⟨cs, hs, ug⟩
        = ⟨cs ++ l.map (fun p => [p]), hs ++ l.filterMap (fun p => hash_to_int p.hash), ug⟩ := by
  intro l
  induction l with
  | nil => intro cs hs ug _ _ _; simp
  | cons p t ih =>
    intro cs hs ug hhash hfar hpair
    obtain ⟨hp, hhp⟩ := Option.isSome_iff_exists.mp (hhash p (List.mem_cons_self _ _))
    have hnone : findClusterIdx hp hs DEFAULT_NEAR_DUPLICATE_THRESHOLD = none :=
      findClusterIdxAux_eq_none hp _ hs
        (fun b hb => hfar p (List.mem_cons_self _ _) hp hhp b hb) 0
    have hstep : clusterStep ⟨cs, hs, ug⟩ p
        = ⟨cs ++ [[p]], hs ++ [hp], ug⟩ := by
      simp only [clusterStep, hhp, hnone]
    have hpair' := List.pairwise_cons.mp hpair
    rw [List.foldl_cons, hstep,
      ih (cs ++ [[p]]) (hs ++ [hp]) ug
        (fun q hq => hhash q (List.mem_cons_of_mem _ hq))
        ?_ hpair'.2]
    · simp [hhp, List.append_assoc]
    · intro q hq hq' hhq b hb
      rcases List.mem_append.mp hb with hb | hb
      · exact hfar q (List.mem_cons_of_mem _ hq) hq' hhq b hb
      · have hbp : b = hp := by simpa using hb
        subst hbp
        have hqp := hpair'.1 q hq
        rw [hashesFar, hhq, hhp] at hqp
        simp only [decide_eq_true_eq] at hqp
        exact fun hle => absurd hle (not_le.mpr hqp)

theorem filterMap_head_singletons (l : List Photo) :
    (l.map (fun p => [p])).filterMap List.head? = l := by
  induction l with
  | nil => rfl
  | cons p t ih => simp [ih]

/-- C2: for every list of eligible photos (no error, numeric score,
fingerprint present) with strictly decreasing scores and pairwise
fingerprints farther apart than the duplicate threshold, and every target
count `k`, `select_top_photos` returns exactly the `min(k, N)`
highest-scoring photos — the first `k` of the (already descending) input. -/
theorem C2_top_selection (photos : List Photo) (k : Nat)
    (herr : ∀ p ∈ photos, p.error = false)
    (hsc : ∀ p ∈ photos, p.analysisScore.isSome = true)
    (hhash : ∀ p ∈ photos, (hash_to_int p.hash).isSome = true)
    (hdesc : photos.Chain' (fun a b => photoScore b < photoScore a))
    (hfar : photos.Pairwise (fun a b => hashesFar b a = true)) :
    select_top_photos photos k = photos.take k := by
  have hchain : photos.Chain' (fun a b => photoScore b ≤ photoScore a) :=
    hdesc.imp (fun _ _ h => le_of_lt h)
  have hfilter : photos.filter has_valid_score = photos :=
    List.filter_eq_self.mpr (fun p hp => by
      simp [has_valid_score, herr p hp, hsc p hp])
  have hfold := foldl_clusterStep_fresh photos [] [] [] hhash
    (by intro p hp hp' hhp b hb; simp at hb) hfar
  simp only [select_top_photos, hfilter, sortPhotosDesc_eq_self photos hchain, hfold]
  simp only [List.nil_append, filterMap_head_singletons, List.append_nil,
    sortPhotosDesc_eq_self photos hchain]
  by_cases hk : photos.length ≤ k
  · rw [if_pos hk, List.take_of_length_le hk]
  · rw [if_neg hk]

theorem C2_witness :
    List.Chain' (fun a b => photoScore b < photoScore a)
        [⟨"a", false, some (9 / 10), HashField.int 0⟩,
          ⟨"b", false, some (8 / 10), HashField.int 65535⟩]
    ∧ List.Pairwise (fun a b => hashesFar b a = true)
        [⟨"a", false, some (9 / 10), HashField.int 0⟩,
          ⟨"b", false, some (8 / 10), HashField.int 65535⟩]
    ∧ select_top_photos
        [⟨"a", false, some (9 / 10), HashField.int 0⟩,
          ⟨"b", false, some (8 / 10), HashField.int 65535⟩] 1
      = List.take 1
          [⟨"a", false, some (9 / 10), HashField.int 0⟩,
            ⟨"b", false, some (8 / 10), HashField.int 65535⟩] := by
  have hdesc : List.Chain' (fun a b => photoScore b < photoScore a)
      [⟨"a", false, some (9 / 10), HashField.int 0⟩,
        ⟨"b", false, some (8 / 10), HashField.int 65535⟩] := by
    simp [List.chain'_cons, photoScore]
    norm_num
  have hfar : List.Pairwise (fun a b => hashesFar b a = true)
      [⟨"a", false, some (9 / 10), HashField.int 0⟩,
        ⟨"b", false, some (8 / 10), HashField.int 65535⟩] := by decide
  exact ⟨hdesc, hfar,
    C2_top_selection _ 1 (by decide) (by decide) (by decide) hdesc hfar⟩

/-- C4: two eligible photos with identical fingerprints and scores 0.9 /
0.8 collapse to one cluster for every threshold ≥ 0 (the identical
fingerprint joins the first representative: `findClusterIdx` returns
index 0), and photo selection with `target_count = 1` returns only the
0.9-scored photo, whichever order the two photos arrive in, for both
`select_top_photos` and the threshold-parameterised
`select_photos_with_dedupe`. -/
theorem C4_duplicate_collapse (t : ℤ) (ht : 0 ≤ t) (f : Nat) (p q : Photo)
    (hperr : p.error = false) (hpsc : p.analysisScore = some (9 / 10))
    (hph : hash_to_int p.hash = some f)
    (hqerr : q.error = false) (hqsc : q.analysisScore = some (8 / 10))
    (hqh : hash_to_int q.hash = some f) :
    findClusterIdx f [f] t = some 0
    ∧ select_top_photos [p, q] 1 = [p]
    ∧ select_top_photos [q, p] 1 = [p]
    ∧ select_photos_with_dedupe [p, q] 1 t true = [p]
    ∧ select_photos_with_dedupe [q, p] 1 t true = [p] := by
  have hnear : ∀ t' : ℤ, 0 ≤ t' → is_near_duplicate f [f] t' = true := by
    intro t' ht'
    simp [is_near_duplicate, hamming_self, ht']
  have hfind : ∀ t' : ℤ, 0 ≤ t' → findClusterIdx f [f] t' = some 0 := by
    intro t' ht'
    simp [findClusterIdx, findClusterIdxAux, hnear t' ht']
  have hq_le_p : photoScore q ≤ photoScore p := by
    simp [photoScore, hpsc, hqsc]
    norm_num
  have hp_not_le_q : ¬ photoScore p ≤ photoScore q := by
    simp [photoScore, hpsc, hqsc]
    norm_num
  refine ⟨hfind t ht, ?_, ?_, ?_, ?_⟩
  · simp [select_top_photos, has_valid_score, hperr, hpsc, hqerr, hqsc,
      sortPhotosDesc, insertDesc, hq_le_p, clusterStep, hph, hqh,
      hnear 8 (by norm_num), findClusterIdx, findClusterIdxAux, appendAt,
      DEFAULT_NEAR_DUPLICATE_THRESHOLD]
  · simp [select_top_photos, has_valid_score, hperr, hpsc, hqerr, hqsc,
      sortPhotosDesc, insertDesc, hq_le_p, hp_not_le_q, clusterStep, hph, hqh,
      hnear 8 (by norm_num), findClusterIdx, findClusterIdxAux, appendAt,
      DEFAULT_NEAR_DUPLICATE_THRESHOLD]
  · simp [select_photos_with_dedupe, has_valid_score, hperr, hpsc, hqerr, hqsc,
      sortPhotosDesc, insertDesc, hq_le_p, dedupeKeepLoop, hph, hqh,
      is_near_duplicate]
  · simp [select_photos_with_dedupe, has_valid_score, hperr, hpsc, hqerr, hqsc,
      sortPhotosDesc, insertDesc, hq_le_p, hp_not_le_q, dedupeKeepLoop, hph, hqh,
      is_near_duplicate]

theorem C4_witness :
    (0 : ℤ) ≤ 8
    ∧ select_top_photos
        [⟨"x", false, some (9 / 10), HashField.int 42⟩,
          ⟨"y", false, some (8 / 10), HashField.int 42⟩] 1
      = [⟨"x", false, some (9 / 10), HashField.int 42⟩]
    ∧ select_photos_with_dedupe
        [⟨"y", false, some (8 / 10), HashField.int 42⟩,
          ⟨"x", false, some (9 / 10), HashField.int 42⟩] 1 8 true
      = [⟨"x", false, some (9 / 10), HashField.int 42⟩] := by
  have h := C4_duplicate_collapse 8 (by norm_num) 42
    ⟨"x", false, some (9 / 10), HashField.int 42⟩
    ⟨"y", false, some (8 / 10), HashField.int 42⟩
    rfl rfl rfl rfl rfl rfl
  exact ⟨by norm_num, h.2.1, h.2.2.2.2⟩


end PhotoSelector
